import Mathlib

/-!
Shallow embedding of the ingredient-cabinet store of
`src/frontend/app/(tabs)/cabinet.tsx`: the in-memory ingredient list, its
mutation operations (delete/undo, rename, quantity adjustment, purchase
marking) and the debounced remote reconciliation pass, together with the
initial load from the remote pantry or the local cache.

Numbers are embedded as `ℚ` (the quantities involved stay well inside the
exactly-representable range of JS doubles for the 2-decimal arithmetic the
code performs).  Optional JS fields become `Option`; JS truthiness of the
optional boolean `wanted` is made explicit.
-/

namespace Cabinet

-- Batteries marks the arithmetic on `Rat` `@[irreducible]`, which blocks
-- `decide`/`rfl` evaluation of concrete quantities; restore reducibility for
-- this development (proof content is unchanged).
attribute [local semireducible] Rat.add Rat.sub Rat.mul Rat.inv Rat.ofScientific

/-- The `Category` type is imported by the source from a UI component that is
not part of this snapshot; the store only ever compares category values with
`===` and uses the literal `'Other'` as a default, so it is embedded as a
string. -/
abbrev Category := String

/-- `Ingredient` (cabinet.tsx lines 55-65).  `qty` is the optional `0..1`
fraction remaining (`qty?: number`), `wanted` the optional shopping flag. -/
structure Ingredient where
  id : String
  name : String
  category : Category
  owned : Bool
  wanted : Option Bool := none
  impactScore : Option ℚ := none
  imageUrl : Option String := none
  qty : Option ℚ := none
deriving DecidableEq, Repr

/-- JS truthiness of the optional `wanted` flag: `undefined` is falsy. -/
def truthy (b : Option Bool) : Bool := b.getD false

/-- `Math.round`: rounds to the nearest integer, halves toward `+∞`
(`Math.round x = ⌊x + 0.5⌋`).  Written with `Rat.floor` so that it evaluates
by kernel reduction; `jsRound_eq_floor` relates it to `⌊·⌋`. -/
def jsRound (q : ℚ) : ℤ := Rat.floor (q + 1/2)

theorem jsRound_eq_floor (q : ℚ) : jsRound q = ⌊q + 1/2⌋ := by
  rw [jsRound, Rat.floor_def, Rat.floor_def']

/-- `String.prototype.trim`, embedded structurally over the character list
(core `String.trim` uses well-founded recursion, which blocks kernel
evaluation). -/
def jsTrim (s : String) : String :=
  String.mk (((s.data.dropWhile Char.isWhitespace).reverse.dropWhile
    Char.isWhitespace).reverse)

/-- `String.prototype.toLowerCase`, embedded structurally. -/
def jsToLower (s : String) : String := String.mk (s.data.map Char.toLower)

/-- Whether the first character list is an initial segment of the second. -/
def startsWithChars : List Char → List Char → Bool
  | [], _ => true
  | _ :: _, [] => false
  | a :: as, b :: bs => a = b && startsWithChars as bs

/-- Whether the first character list occurs contiguously inside the second. -/
def hasInfixChars (pat : List Char) : List Char → Bool
  | [] => startsWithChars pat []
  | c :: cs => startsWithChars pat (c :: cs) || hasInfixChars pat cs

/-- `String.prototype.includes`: substring containment, embedded as infix of
the character list. -/
def jsIncludes (s sub : String) : Bool := hasInfixChars sub.data s.data

/-- `Math.max(0, Math.min(1, q))` (cabinet.tsx line 459). -/
def clamp01 (q : ℚ) : ℚ := max 0 (min 1 q)

/-- The value stored by `adjustQty` (cabinet.tsx lines 459-460):
`Math.round(clamped * 100) / 100`. -/
def adjustQtyValue (nextQty : ℚ) : ℚ := (jsRound (clamp01 nextQty * 100) : ℚ) / 100

/-- The state update performed by `adjustQty` (cabinet.tsx lines 462-464):
the entry with the given id gets the clamped, rounded quantity.  (The
background remote update the handler also fires is modeled separately by
`syncIngredientToBackend`; it does not touch the list.) -/
def adjustQty (id : String) (nextQty : ℚ) (prev : List Ingredient) : List Ingredient :=
  prev.map fun i => if i.id = id then { i with qty := some (adjustQtyValue nextQty) } else i

/-- `Array.prototype.findIndex`, as used at cabinet.tsx line 397 (`-1` for
"not found" becomes `none`). -/
def findIndex (p : α → Bool) : List α → Option ℕ
  | [] => none
  | a :: as => if p a then some 0 else (findIndex p as).map (· + 1)

/-- The data captured by the undo closure of `deleteIngredient`: the removed
entry and its original index. -/
structure DeleteUndo where
  removed : Ingredient
  idx : ℕ
deriving DecidableEq, Repr

/-- `deleteIngredient` (cabinet.tsx lines 395-415): removes the first entry
with the given id (`[...prev.slice(0, idx), ...prev.slice(idx + 1)]`) and
records the undo data; when no entry matches, the list is returned unchanged
and no undo/toast is recorded. -/
def deleteIngredient (id : String) (prev : List Ingredient) :
    List Ingredient × Option DeleteUndo :=
  match findIndex (fun i => i.id = id) prev with
  | none => (prev, none)
  | some idx =>
    match prev[idx]? with
    | none => (prev, none)
    | some removed => (prev.take idx ++ prev.drop (idx + 1), some ⟨removed, idx⟩)

/-- The undo closure recorded by `deleteIngredient` (cabinet.tsx lines
403-411): if an entry with the removed id is already present the list is
unchanged, otherwise the removed entry is reinserted at its original index
(`[...prev2.slice(0, idx), removed, ...prev2.slice(idx)]`). -/
def deleteUndo (u : DeleteUndo) (prev2 : List Ingredient) : List Ingredient :=
  if prev2.any (fun x => x.id = u.removed.id) then prev2
  else prev2.take u.idx ++ [u.removed] ++ prev2.drop u.idx

/-- `markPurchasedSingle` (cabinet.tsx lines 482-503): if an entry with the
id exists, it transitions to `wanted=false, owned=true, qty=1`; the second
component is the snapshot `it` captured by the undo closure (present exactly
when a toast is shown). -/
def markPurchasedSingle (id : String) (ingredients : List Ingredient) :
    List Ingredient × Option Ingredient :=
  match ingredients.find? (fun i => i.id = id) with
  | none => (ingredients, none)
  | some it =>
    (ingredients.map fun i =>
      if i.id = id then { i with wanted := some false, owned := true, qty := some 1 } else i,
     some it)

/-- The undo closure recorded by `markPurchasedSingle` (cabinet.tsx lines
492-501): it sets `wanted: true, owned: false, qty: it.qty ?? 1` on the
entry, where `it` is the snapshot captured when the action ran. -/
def markPurchasedUndo (it : Ingredient) (id : String) (prev : List Ingredient) :
    List Ingredient :=
  prev.map fun i =>
    if i.id = id then { i with wanted := some true, owned := false, qty := some (it.qty.getD 1) }
    else i

/-- `filterByQueryAndCategory` (cabinet.tsx lines 349-361): free-text
case-insensitive substring filter on the name, then category filter
(`categoryFilter !== 'All'` is embedded as `some c`). -/
def filterByQueryAndCategory (query : String) (categoryFilter : Option Category)
    (list : List Ingredient) : List Ingredient :=
  let out :=
    if jsTrim query ≠ "" then
      let q := jsToLower (jsTrim query)
      list.filter fun i => jsIncludes (jsToLower i.name) q
    else list
  match categoryFilter with
  | some c => out.filter fun i => i.category = c
  | none => out

/-- Insertion of an element into a sorted list, for `sortIns`. -/
def insertSorted (le : α → α → Bool) (a : α) : List α → List α
  | [] => [a]
  | b :: bs => if le a b then a :: b :: bs else b :: insertSorted le a bs

/-- Structural stable sort (insertion sort), embedding the effect of
`Array.prototype.sort` with a total comparator. -/
def sortIns (le : α → α → Bool) : List α → List α
  | [] => []
  | a :: as => insertSorted le a (sortIns le as)

/-- `sortByName` (cabinet.tsx lines 341-347): sort ascending by name
(`localeCompare` is embedded as lexicographic string order), reversed when
the sort toggle is descending. -/
def sortByName (sortAsc : Bool) (list : List Ingredient) : List Ingredient :=
  let out := sortIns (fun a b => a.name ≤ b.name) list
  if sortAsc then out else out.reverse

/-- `shoppingItems` (cabinet.tsx lines 369-373): the wanted entries, filtered
by the active query and category, sorted for display. -/
def shoppingItems (query : String) (categoryFilter : Option Category) (sortAsc : Bool)
    (ingredients : List Ingredient) : List Ingredient :=
  sortByName sortAsc
    (filterByQueryAndCategory query categoryFilter (ingredients.filter fun i => truthy i.wanted))

/-- The transition applied by the purchase actions:
`{ ...i, wanted: false, owned: true, qty: 1 }`. -/
def purchaseEntry (i : Ingredient) : Ingredient :=
  { i with wanted := some false, owned := true, qty := some 1 }

/-- `markPurchased` (cabinet.tsx lines 505-512): a no-op when the currently
displayed (query- and category-filtered) shopping list is empty; otherwise
every wanted entry of the full list transitions to purchased. -/
def markPurchased (query : String) (categoryFilter : Option Category) (sortAsc : Bool)
    (ingredients : List Ingredient) : List Ingredient :=
  if (shoppingItems query categoryFilter sortAsc ingredients).length = 0 then ingredients
  else ingredients.map fun i => if truthy i.wanted then purchaseEntry i else i

/-- The `{displayName, canonicalName}` pair returned by the name normalizer. -/
structure NormPair where
  displayName : String
  canonicalName : String
deriving DecidableEq, Repr

/-- Modelled from the spec: `normalizeIngredient` lives in
`app/utils/normalize`, which is not part of this snapshot.  The spec says
only that the normalizer "maps a free-text ingredient name to a
canonical/display name pair", fixing no algorithm, so the least-committal
model returns the input unchanged in both components.  Theorems that depend
on the normalizer are quantified over it; this definition only instantiates
concrete witnesses and counterexamples. -/
def specNormalize (s : String) : NormPair := ⟨s, s⟩

/-- Modelled from the spec: `ingredientImageUrl` lives in
`app/utils/cocktaildb`, which is not part of this snapshot; the spec calls it
"an image-URL-from-name function".  Used only to instantiate quantified
theorems at concrete inputs. -/
def specImageUrl (name size : String) : String := name ++ "/" ++ size

/-- The data captured by the undo closure of `confirmRename`: the captured
item id and its previous name (only the name is reverted by the closure). -/
structure RenameUndo where
  id : String
  prevName : String
deriving DecidableEq, Repr

/-- `confirmRename` (cabinet.tsx lines 524-562), for a given `renamingItem`
snapshot and the text `newName` of the rename modal: a guard rejects an empty
trimmed name; a trimmed name equal to the snapshot's current name closes the
modal without touching the list or recording a toast; otherwise the entry's
`name` and derived `imageUrl` are updated (`canonicalName || displayName`
embeds JS falsiness of the empty string) and an undo record is produced. -/
def confirmRename (norm : String → NormPair) (imgUrl : String → String → String)
    (renamingItem : Ingredient) (newName : String) (ingredients : List Ingredient) :
    List Ingredient × Option RenameUndo :=
  if jsTrim newName = "" then (ingredients, none)
  else
    let trimmed := jsTrim newName
    let p := norm trimmed
    if trimmed = renamingItem.name then (ingredients, none)
    else
      (ingredients.map fun i =>
        if i.id = renamingItem.id then
          { i with
            name := p.displayName
            imageUrl := some (imgUrl
              (if p.canonicalName = "" then p.displayName else p.canonicalName) "Small") }
        else i,
       some ⟨renamingItem.id, renamingItem.name⟩)

/-! ### Remote pantry reconciliation (cabinet.tsx lines 212-323) -/

/-- A remote pantry row, `{ id: number, ingredient_name: string,
quantity: number }`.  The quantity is `Option` because the code guards every
read with `?? 1`. -/
structure PantryRow where
  id : ℕ
  ingredient_name : String
  quantity : Option ℚ
deriving DecidableEq, Repr

/-- The `backendIngredientMap` ref (cabinet.tsx line 102): local id →
backend id, embedded as an insertion-ordered association list (the delete
phase iterates it in insertion order, as a JS `Map` does). -/
abbrev BackendMap := List (String × ℕ)

/-- `Map.prototype.set`: overwrite in place when the key exists, else append. -/
def mapSet (m : BackendMap) (k : String) (v : ℕ) : BackendMap :=
  if m.any (fun p => p.1 = k) then m.map (fun p => if p.1 = k then (k, v) else p)
  else m ++ [(k, v)]

/-- `Map.prototype.get`. -/
def mapGet (m : BackendMap) (k : String) : Option ℕ :=
  (m.find? (fun p => p.1 = k)).map (·.2)

/-- `Map.prototype.delete`. -/
def mapDelete (m : BackendMap) (k : String) : BackendMap :=
  m.filter fun p => decide (p.1 ≠ k)

/-- A remote pantry call issued by the sync logic (the debounced pass also
issues one `GET`, embedded as the `fetch` parameter of `runSyncPass`). -/
inductive RemoteCall where
  | post (ingredient_name : String) (quantity : ℚ)
  | put (id : ℕ) (quantity : ℚ)
  | delete (id : ℕ)
deriving DecidableEq, Repr

def RemoteCall.isPost : RemoteCall → Bool
  | .post _ _ => true
  | _ => false

def RemoteCall.isPut : RemoteCall → Bool
  | .put _ _ => true
  | _ => false

/-- The behaviour of the remote API during one pass: the outcome of each
`POST` (a created row id on success), `PUT` and `DELETE`.  `Except .error`
embeds a rejected promise. -/
structure Oracle where
  post : String → ℚ → Except Unit ℕ
  put : ℕ → ℚ → Except Unit Unit
  del : ℕ → Except Unit Unit

def Oracle.allOk : Oracle where
  post := fun _ _ => .ok 1000
  put := fun _ _ => .ok ()
  del := fun _ => .ok ()

def Oracle.allFail : Oracle where
  post := fun _ _ => .error ()
  put := fun _ _ => .error ()
  del := fun _ => .error ()

inductive SyncAction where
  | add | update | remove
deriving DecidableEq, Repr

/-- `syncIngredientToBackend` (cabinet.tsx lines 212-249): guard on
authentication and ownership, then one best-effort call.  `add` posts the
name and quantity and on success records the local→backend mapping; `update`
puts the quantity only when the mapping for the local id is *truthy* —
present and nonzero, since the guard `if (backendId)` makes a mapped id 0
falsy in JS — and is silently skipped otherwise; `remove` deletes the mapped
row (same truthiness guard) and drops the mapping, keeping it when the
delete fails (its own `try`/`catch` swallows every failure).  Returns the
updated map and the calls issued. -/
def syncIngredientToBackend (isAuthenticated : Bool) (o : Oracle) (m : BackendMap)
    (ingredient : Ingredient) (action : SyncAction) : BackendMap × List RemoteCall :=
  if ¬isAuthenticated ∨ ¬ingredient.owned then (m, [])
  else
    match action with
    | .add =>
      let q := ingredient.qty.getD 1
      match o.post ingredient.name q with
      | .ok respId => (mapSet m ingredient.id respId, [.post ingredient.name q])
      | .error _ => (m, [.post ingredient.name q])
    | .update =>
      match mapGet m ingredient.id with
      | some backendId =>
        -- `if (backendId)` (cabinet.tsx:231): a mapped id of 0 is falsy in
        -- JS, so the PUT is skipped for it just as for a missing mapping.
        if backendId = 0 then (m, [])
        else (m, [.put backendId (ingredient.qty.getD 1)])
      | none => (m, [])
    | .remove =>
      match mapGet m ingredient.id with
      | some backendId =>
        -- `if (backendId)` (cabinet.tsx:238): a mapped id of 0 is falsy in
        -- JS, so the DELETE is skipped for it.
        if backendId = 0 then (m, [])
        else
          match o.del backendId with
          | .ok _ => (mapDelete m ingredient.id, [.delete backendId])
          | .error _ => (m, [.delete backendId])
      | none => (m, [])

/-- One iteration of the owned-ingredient loop of the debounced sync pass
(cabinet.tsx lines 276-295): look the lower-cased local name up in the
name→id map built from the fetched rows; the branch is chosen by the JS
truthiness of the lookup (`if (backendId)`, cabinet.tsx line 280), so both a
missing name and a name matched to row id 0 (falsy) take the "Add new"
create branch; on a truthy hit, issue an update when the quantities differ
by more than `0.01` and then record the matched backend id for the local id.
Returns the updated `backendIngredientMap` and the calls issued for this
entry. -/
def reconcileOwnedEntry (o : Oracle) (pantryItems : List PantryRow)
    (backendMap : BackendMap) (m : BackendMap) (ingredient : Ingredient) :
    BackendMap × List RemoteCall :=
  let normalizedName := jsToLower ingredient.name
  match mapGet backendMap normalizedName with
  | some backendId =>
    if backendId = 0 then syncIngredientToBackend true o m ingredient .add
    else
      let step :=
        match pantryItems.find? (fun p => p.id = backendId) with
        | some backendItem =>
          if |backendItem.quantity.getD 1 - ingredient.qty.getD 1| > 1/100 then
            syncIngredientToBackend true o m ingredient .update
          else (m, [])
        | none => (m, [])
      (mapSet step.1 ingredient.id backendId, step.2)
  | none => syncIngredientToBackend true o m ingredient .add

/-- The owned-ingredient loop, folded left over the owned entries in list
order, accumulating map updates and issued calls. -/
def reconcileOwnedList (o : Oracle) (pantryItems : List PantryRow)
    (backendMap : BackendMap) (m : BackendMap) (owned : List Ingredient) :
    BackendMap × List RemoteCall :=
  owned.foldl
    (fun st ing =>
      let r := reconcileOwnedEntry o pantryItems backendMap st.1 ing
      (r.1, st.2 ++ r.2))
    (m, [])

/-- The removal phase of the sync pass (cabinet.tsx lines 298-304): every
mapping whose local entry is gone or no longer owned gets a remote delete and
is dropped.  The `del` here is *not* wrapped in an inner `try`, so the first
failing delete aborts the rest of the pass (the Bool result); the map keeps
the entry whose delete failed and everything not yet visited. -/
def removePhase (o : Oracle) (ingredients : List Ingredient) (m : BackendMap) :
    List (String × ℕ) → BackendMap × List RemoteCall × Bool
  | [] => (m, [], false)
  | (localId, backendId) :: rest =>
    let keep :=
      match ingredients.find? (fun i => i.id = localId) with
      | some i => i.owned
      | none => false
    if keep then removePhase o ingredients m rest
    else
      match o.del backendId with
      | .ok _ =>
        let r := removePhase o ingredients (mapDelete m localId) rest
        (r.1, .delete backendId :: r.2.1, r.2.2)
      | .error _ => (m, [.delete backendId], true)

/-- The mutable state the debounced sync pass can touch: the in-memory entry
list (`setIngredients`) and the `backendIngredientMap` ref.  (`setSyncing`
drives a spinner only.) -/
structure SyncState where
  ingredients : List Ingredient
  backendIngredientMap : BackendMap
deriving DecidableEq, Repr

/-- The debounced backend sync pass (cabinet.tsx lines 252-323), run once its
timer fires: skip when still loading or unauthenticated; otherwise fetch the
pantry (`fetch` is the GET outcome), build the normalized-lower-cased-name →
id lookup, reconcile each owned entry, then delete the stale mappings.  The
whole body sits in a `try`/`catch` that only logs, so a failed fetch or an
aborting delete leaves whatever state had been reached.  Returns the new
state and the non-GET calls issued. -/
def runSyncPass (loading isAuthenticated : Bool) (norm : String → NormPair)
    (fetch : Except Unit (List PantryRow)) (o : Oracle) (s : SyncState) :
    SyncState × List RemoteCall :=
  if loading ∨ ¬isAuthenticated then (s, [])
  else
    match fetch with
    | .error _ => (s, [])
    | .ok pantryItems =>
      let backendMap : BackendMap :=
        pantryItems.foldl
          (fun bm item =>
            mapSet bm (jsToLower (norm item.ingredient_name).displayName) item.id)
          []
      let ownedIngredients := s.ingredients.filter fun i => i.owned
      let r1 := reconcileOwnedList o pantryItems backendMap s.backendIngredientMap ownedIngredients
      let r2 := removePhase o s.ingredients r1.1 r1.1
      ({ s with backendIngredientMap := r2.1 }, r1.2 ++ r2.2.1)

/-! ### Initial load (cabinet.tsx lines 114-186) -/

/-- `db_` local-id prefixing of a backend id. -/
def dbId (n : ℕ) : String := "db_" ++ toString n

/-- The conversion of one fetched pantry row to an `Ingredient`
(cabinet.tsx lines 130-149): normalized display name, default category
`'Other'`, `owned: true`, the row's quantity, and the derived image URL. -/
def convertPantryRow (norm : String → NormPair) (imgUrl : String → String → String)
    (item : PantryRow) : Ingredient :=
  let p := norm item.ingredient_name
  { id := dbId item.id
    name := p.displayName
    category := "Other"
    owned := true
    qty := item.quantity
    imageUrl := some (imgUrl
      (if p.canonicalName = "" then p.displayName else p.canonicalName) "Small") }

/-- What the initial-load effect leaves behind: the in-memory list, the cache
writes that actually executed, and the map entries inserted while converting
fetched rows. -/
structure LoadResult where
  ingredients : List Ingredient
  cacheWrites : List (List Ingredient)
  mapInserts : List (String × ℕ)
deriving DecidableEq, Repr

/-- Modelled from the spec: the *intended* cache fallback — the parsed cached
entries with any entry lacking a numeric `quantity` normalized to `1` ("the
component falls back to whatever is stored in the local cache, normalizing
any legacy entries lacking a `quantity` field to default 1").  The source
line that should perform this (cabinet.tsx line 174) instead references the
undefined identifier `existingIngredients`. -/
def loadFallbackSpec (parsed : List Ingredient) : List Ingredient :=
  parsed.map fun i => { i with qty := some (i.qty.getD 1) }

/-- The initial-load effect (cabinet.tsx lines 115-186), translated with its
two run-time faults: when authenticated and the fetch succeeds with a
non-empty list, `setIngredients(loadedIngredients)` executes (line 152), but
the following cache write evaluates the *undefined* identifier
`mergedIngredients` (line 157), throwing a `ReferenceError` that the inner
`catch` (line 163) swallows, so no cache write happens and control falls
through to the cache fallback; the fallback (lines 170-179), whenever a raw
cache value exists, evaluates the *undefined* identifier
`existingIngredients` (line 174) before calling `setIngredients`, throwing a
`ReferenceError` that the outer `catch` (line 180) swallows, so the state
carries whatever was set before it. -/
def initialLoad (isAuthenticated : Bool) (fetch : Except Unit (List PantryRow))
    (cacheRaw : Option (List Ingredient)) (prior : List Ingredient)
    (norm : String → NormPair) (imgUrl : String → String → String) : LoadResult :=
  let afterDb : List Ingredient × List (String × ℕ) :=
    if isAuthenticated then
      match fetch with
      | .ok pantryItems =>
        if pantryItems.length > 0 then
          (pantryItems.map (convertPantryRow norm imgUrl),
           pantryItems.map fun item => (dbId item.id, item.id))
        else (prior, [])
      | .error _ => (prior, [])
    else (prior, [])
  -- Cache fallback: with `raw` present the ReferenceError fires before
  -- `setIngredients`; with it absent the branch is skipped.  Either way the
  -- list set so far stands and no cache write ever executes.
  match cacheRaw with
  | some _parsed => { ingredients := afterDb.1, cacheWrites := [], mapInserts := afterDb.2 }
  | none => { ingredients := afterDb.1, cacheWrites := [], mapInserts := afterDb.2 }

/-! ### Concrete fixtures used by witnesses and counterexamples -/

/-- A locally created owned entry named "Lime" with half a bottle left. -/
def limeLocal : Ingredient :=
  { id := "local_1", name := "Lime", category := "Other", owned := true, qty := some (mkRat 1 2) }

/-- A remote pantry row named "Lime" with quantity 0.9. -/
def limeRemote : PantryRow :=
  { id := 7, ingredient_name := "Lime", quantity := some (mkRat 9 10) }

/-- An entry that is simultaneously owned and on the shopping list. -/
def exEntry : Ingredient :=
  { id := "a", name := "Gin", category := "Other", owned := true, wanted := some true,
    qty := some (mkRat 1 2) }

/-- A cached legacy entry with no `qty` field. -/
def legacyEntry : Ingredient :=
  { id := "a1", name := "Lime", category := "Other", owned := true }

/-- The state of `exEntry` right after `markPurchasedSingle`. -/
def exEntryPost : Ingredient := { exEntry with wanted := some false, owned := true, qty := some 1 }

/-- The state of `exEntry` after the purchase undo closure ran. -/
def exEntryUndone : Ingredient :=
  { exEntry with wanted := some true, owned := false, qty := some (exEntry.qty.getD 1) }

/-! ### Theorems -/

/-- C5: for every quantity input `q` and every entry with the given id in the
result of `adjustQuantity(id, q)`, the stored quantity is
`round(clamp(q, 0, 1) * 100) / 100`, a value in `[0, 1]` that is an integer
multiple of `1/100` (2 decimal places). -/
theorem adjustQty_clamps_and_rounds (q : ℚ) (id : String) (l : List Ingredient)
    (i : Ingredient) (hi : i ∈ adjustQty id q l) (hid : i.id = id) :
    i.qty = some (adjustQtyValue q) ∧ 0 ≤ adjustQtyValue q ∧ adjustQtyValue q ≤ 1 ∧
      ∃ n : ℤ, adjustQtyValue q = (n : ℚ) / 100 := by
  have hq : i.qty = some (adjustQtyValue q) := by
    obtain ⟨j, hj, rfl⟩ := List.mem_map.1 hi
    by_cases h : j.id = id
    · simp [h]
    · simp [h] at hid
  have h0 : (0 : ℚ) ≤ clamp01 q := le_max_left 0 _
  have h1 : clamp01 q ≤ 1 := max_le zero_le_one (min_le_left 1 q)
  have hfl : jsRound (clamp01 q * 100) = ⌊clamp01 q * 100 + 1/2⌋ := jsRound_eq_floor _
  have hge : (0 : ℤ) ≤ jsRound (clamp01 q * 100) := by
    rw [hfl]
    refine Int.le_floor.2 ?_
    push_cast
    nlinarith
  have hle : jsRound (clamp01 q * 100) ≤ 100 := by
    rw [hfl]
    refine Int.floor_le_iff.2 ?_
    push_cast
    nlinarith
  refine ⟨hq, ?_, ?_, ⟨jsRound (clamp01 q * 100), rfl⟩⟩
  · exact div_nonneg (by exact_mod_cast hge) (by norm_num)
  · rw [adjustQtyValue, div_le_one (by norm_num)]
    exact_mod_cast hle

/-- Witness for C5 at `q = 7/3` (clamped to 1, stored as 1). -/
theorem adjustQty_clamps_and_rounds_witness :
    ({ limeLocal with qty := some (adjustQtyValue (mkRat 7 3)) } : Ingredient).qty
        = some (adjustQtyValue (mkRat 7 3)) ∧
      0 ≤ adjustQtyValue (mkRat 7 3) ∧ adjustQtyValue (mkRat 7 3) ≤ 1 ∧
      ∃ n : ℤ, adjustQtyValue (mkRat 7 3) = (n : ℚ) / 100 :=
  adjustQty_clamps_and_rounds (mkRat 7 3) "local_1" [limeLocal]
    { limeLocal with qty := some (adjustQtyValue (mkRat 7 3)) } (by decide) (by decide)

/-- C7: confirming a rename whose trimmed new name equals the renamed item's
current name leaves the entry list untouched and records no undo/toast. -/
theorem confirmRename_self_noop (norm : String → NormPair) (imgUrl : String → String → String)
    (renamingItem : Ingredient) (newName : String) (l : List Ingredient)
    (h : jsTrim newName = renamingItem.name) :
    confirmRename norm imgUrl renamingItem newName l = (l, none) := by
  unfold confirmRename
  by_cases h0 : jsTrim newName = ""
  · simp [h0]
  · simp [h0, h]

/-- Witness for C7: renaming "Gin" to " Gin  " (same name after trimming). -/
theorem confirmRename_self_noop_witness :
    confirmRename specNormalize specImageUrl exEntry " Gin  " [exEntry] = ([exEntry], none) :=
  confirmRename_self_noop specNormalize specImageUrl exEntry " Gin  " [exEntry] (by decide)

/-- C8: the debounced backend sync pass never changes the in-memory entry
list, whatever the outcome of the fetch and of every create/update/delete
call it issues (the oracle ranges over all failure patterns): remote failures
only affect the id mapping and the call log, never the entries. -/
theorem runSyncPass_preserves_ingredients (loading isAuthenticated : Bool)
    (norm : String → NormPair) (fetch : Except Unit (List PantryRow)) (o : Oracle)
    (s : SyncState) :
    (runSyncPass loading isAuthenticated norm fetch o s).1.ingredients = s.ingredients := by
  unfold runSyncPass
  split
  · rfl
  · match fetch with
    | .error _ => rfl
    | .ok items => rfl

/-- C9: `markPurchasedAll` is gated on the displayed (query- and
category-filtered) shopping view: with the filtered view empty the entry
list is untouched (even if wanted entries exist); otherwise every wanted
entry transitions to `wanted=false, owned=true, qty=1` and every other entry
is unchanged. -/
theorem markPurchased_gated_on_view (query : String) (categoryFilter : Option Category)
    (sortAsc : Bool) (l : List Ingredient) :
    ((shoppingItems query categoryFilter sortAsc l).length = 0 →
        markPurchased query categoryFilter sortAsc l = l) ∧
      ((shoppingItems query categoryFilter sortAsc l).length ≠ 0 →
        ∀ j : ℕ, (markPurchased query categoryFilter sortAsc l)[j]? =
          (l[j]?).map fun i => if truthy i.wanted then purchaseEntry i else i) := by
  constructor
  · intro h
    simp [markPurchased, h]
  · intro h j
    simp [markPurchased, h, List.getElem?_map]

/-- Witness for C9: `exEntry` is wanted, yet with query "zzz" the filtered
view is empty and nothing changes; with an empty query the entry is
transitioned. -/
theorem markPurchased_gated_on_view_witness :
    markPurchased "zzz" none true [exEntry] = [exEntry] ∧
      (markPurchased "" none true [exEntry])[0]? =
        (([exEntry] : List Ingredient)[0]?).map
          (fun i => if truthy i.wanted then purchaseEntry i else i) :=
  ⟨(markPurchased_gated_on_view "zzz" none true [exEntry]).1 (by decide),
   (markPurchased_gated_on_view "" none true [exEntry]).2 (by decide) 0⟩

/-- C2 (amended): after `markPurchasedSingle(id)` the entry has
`wanted=false, owned=true, qty=1`; the recorded undo closure sets the entry
to `wanted=true, owned=false` and to the snapshot's prior quantity (an
absent quantity becomes the explicit default 1) — it does *not* restore the
prior `wanted`/`owned` values in general. -/
theorem markPurchasedSingle_post_and_undo (id : String) (l : List Ingredient)
    (it : Ingredient) (hfind : l.find? (fun i => i.id = id) = some it) :
    (∀ i ∈ (markPurchasedSingle id l).1, i.id = id →
        i.wanted = some false ∧ i.owned = true ∧ i.qty = some 1) ∧
      (∀ i ∈ markPurchasedUndo it id (markPurchasedSingle id l).1, i.id = id →
        i.wanted = some true ∧ i.owned = false ∧ i.qty = some (it.qty.getD 1)) := by
  constructor
  · intro i hi hid
    simp only [markPurchasedSingle, hfind] at hi
    obtain ⟨j, hj, rfl⟩ := List.mem_map.1 hi
    by_cases h : j.id = id
    · rw [if_pos h]
      exact ⟨rfl, rfl, rfl⟩
    · rw [if_neg h] at hid
      exact absurd hid h
  · intro i hi hid
    simp only [markPurchasedUndo] at hi
    obtain ⟨j, hj, rfl⟩ := List.mem_map.1 hi
    by_cases h : j.id = id
    · rw [if_pos h]
      exact ⟨rfl, rfl, rfl⟩
    · rw [if_neg h] at hid
      exact absurd hid h

/-- Witness for C2's amended theorem at the single-entry list `[exEntry]`. -/
theorem markPurchasedSingle_post_and_undo_witness :
    (exEntryPost.wanted = some false ∧ exEntryPost.owned = true ∧ exEntryPost.qty = some 1) ∧
      (exEntryUndone.wanted = some true ∧ exEntryUndone.owned = false ∧
        exEntryUndone.qty = some (exEntry.qty.getD 1)) :=
  ⟨(markPurchasedSingle_post_and_undo "a" [exEntry] exEntry (by decide)).1
      exEntryPost (by decide) (by decide),
   (markPurchasedSingle_post_and_undo "a" [exEntry] exEntry (by decide)).2
      exEntryUndone (by decide) (by decide)⟩

/-- C2 counterexample: `exEntry` was `owned=true, wanted=true` before
`markPurchasedSingle`; the undo closure yields `owned=false`, so it does not
restore the prior `owned` value — the list after undo differs from the
original. -/
theorem markPurchasedSingle_undo_cex :
    exEntry.owned = true ∧
      (markPurchasedSingle "a" [exEntry]).1 = [exEntryPost] ∧
      markPurchasedUndo exEntry "a" (markPurchasedSingle "a" [exEntry]).1 = [exEntryUndone] ∧
      markPurchasedUndo exEntry "a" (markPurchasedSingle "a" [exEntry]).1 ≠ [exEntry] := by
  decide

/-- C10: the undo closure recorded by `deleteIngredient` is idempotent, is a
no-op whenever an entry with the removed id is already present, and preserves
uniqueness of entry ids. -/
theorem deleteUndo_idempotent_unique (u : DeleteUndo) (l : List Ingredient) :
    deleteUndo u (deleteUndo u l) = deleteUndo u l ∧
      ((∃ x ∈ l, x.id = u.removed.id) → deleteUndo u l = l) ∧
      ((l.map Ingredient.id).Nodup → ((deleteUndo u l).map Ingredient.id).Nodup) := by
  have hnoop : ∀ m : List Ingredient, (∃ x ∈ m, x.id = u.removed.id) → deleteUndo u m = m := by
    intro m hm
    obtain ⟨x, hx, hxid⟩ := hm
    have hany : m.any (fun x => x.id = u.removed.id) = true :=
      List.any_eq_true.2 ⟨x, hx, by simp [hxid]⟩
    simp [deleteUndo, hany]
  refine ⟨?_, hnoop l, ?_⟩
  · by_cases hany : l.any (fun x => x.id = u.removed.id) = true
    · simp [deleteUndo, hany]
    · have hins : deleteUndo u l = l.take u.idx ++ [u.removed] ++ l.drop u.idx := by
        simp only [deleteUndo, Bool.not_eq_true] at hany ⊢
        simp [hany]
      refine hnoop _ ⟨u.removed, ?_, rfl⟩
      rw [hins]
      exact List.mem_append.2 (Or.inl (List.mem_append.2 (Or.inr (by simp))))
  · intro hnd
    by_cases hany : l.any (fun x => x.id = u.removed.id) = true
    · simpa [deleteUndo, hany] using hnd
    · have hins : deleteUndo u l = l.take u.idx ++ [u.removed] ++ l.drop u.idx := by
        simp only [deleteUndo, Bool.not_eq_true] at hany ⊢
        simp [hany]
      have hnot : u.removed.id ∉ l.map Ingredient.id := by
        intro hmem
        obtain ⟨x, hx, hxid⟩ := List.mem_map.1 hmem
        exact hany (List.any_eq_true.2 ⟨x, hx, by simp [hxid]⟩)
      have hperm :
          ((l.take u.idx ++ [u.removed] ++ l.drop u.idx).map Ingredient.id).Perm
            (u.removed.id :: l.map Ingredient.id) := by
        have h1 : (l.take u.idx ++ [u.removed] ++ l.drop u.idx).map Ingredient.id
            = (l.take u.idx).map Ingredient.id ++ u.removed.id :: (l.drop u.idx).map Ingredient.id := by
          simp
        rw [h1]
        have h2 := @List.perm_middle _ u.removed.id
          ((l.take u.idx).map Ingredient.id) ((l.drop u.idx).map Ingredient.id)
        refine h2.trans ?_
        rw [← List.map_append, List.take_append_drop]
      rw [hins]
      exact hperm.nodup_iff.2 (List.nodup_cons.2 ⟨hnot, hnd⟩)

/-- Witness for C10: idempotence, present-id no-op, and id uniqueness at
concrete lists. -/
theorem deleteUndo_idempotent_unique_witness :
    deleteUndo ⟨legacyEntry, 0⟩ (deleteUndo ⟨legacyEntry, 0⟩ [legacyEntry])
        = deleteUndo ⟨legacyEntry, 0⟩ [legacyEntry] ∧
      deleteUndo ⟨legacyEntry, 0⟩ [legacyEntry] = [legacyEntry] ∧
      ((deleteUndo ⟨legacyEntry, 0⟩ [exEntry]).map Ingredient.id).Nodup :=
  ⟨(deleteUndo_idempotent_unique ⟨legacyEntry, 0⟩ [legacyEntry]).1,
   (deleteUndo_idempotent_unique ⟨legacyEntry, 0⟩ [legacyEntry]).2.1
      ⟨legacyEntry, by decide, rfl⟩,
   (deleteUndo_idempotent_unique ⟨legacyEntry, 0⟩ [exEntry]).2.2 (by decide)⟩

/-- A successful `findIndex` points at an element satisfying the predicate. -/
theorem findIndex_some_spec (p : α → Bool) (l : List α) (idx : ℕ)
    (h : findIndex p l = some idx) : ∃ a, l[idx]? = some a ∧ p a := by
  induction l generalizing idx with
  | nil => simp [findIndex] at h
  | cons x xs ih =>
    rw [findIndex] at h
    by_cases hp : p x
    · rw [if_pos hp] at h
      cases h
      exact ⟨x, by simp, hp⟩
    · rw [if_neg hp] at h
      obtain ⟨j, hj, rfl⟩ := Option.map_eq_some'.1 h
      obtain ⟨a, ha, hpa⟩ := ih j hj
      exact ⟨a, by simpa using ha, hpa⟩

/-- A member satisfying the predicate makes `findIndex` succeed. -/
theorem findIndex_eq_some_of_mem (p : α → Bool) (l : List α) (a : α)
    (ha : a ∈ l) (hp : p a) : ∃ idx, findIndex p l = some idx := by
  induction l with
  | nil => cases ha
  | cons x xs ih =>
    by_cases hx : p x
    · exact ⟨0, by rw [findIndex, if_pos hx]⟩
    · rcases List.mem_cons.1 ha with rfl | hxs
      · exact absurd hp hx
      · obtain ⟨j, hj⟩ := ih hxs
        exact ⟨j + 1, by rw [findIndex, if_neg hx, hj]; rfl⟩

/-- C6: when entry ids are unique, deleting an entry and immediately running
the recorded undo closure restores the original list exactly (same entry,
same index, all fields identical). -/
theorem deleteIngredient_undo_restores (id : String) (l : List Ingredient)
    (hnd : (l.map Ingredient.id).Nodup) (e : Ingredient) (he : e ∈ l) (hid : e.id = id) :
    ∃ u, (deleteIngredient id l).2 = some u ∧ deleteUndo u (deleteIngredient id l).1 = l := by
  obtain ⟨idx, hfi⟩ :=
    findIndex_eq_some_of_mem (fun i => i.id = id) l e he (by simp [hid])
  obtain ⟨removed, hget, hprem⟩ := findIndex_some_spec _ _ _ hfi
  have hrid : removed.id = id := by simpa using hprem
  obtain ⟨hlen, hgetE⟩ := List.getElem?_eq_some.1 hget
  have hdel : deleteIngredient id l = (l.take idx ++ l.drop (idx + 1), some ⟨removed, idx⟩) := by
    rw [deleteIngredient, hfi]
    simp [hget]
  have hsplit : l = l.take idx ++ removed :: l.drop (idx + 1) := by
    conv_lhs => rw [← List.take_append_drop idx l]
    rw [List.drop_eq_getElem_cons hlen, hgetE]
  have htklen : (l.take idx).length = idx := by
    rw [List.length_take]
    exact min_eq_left hlen.le
  have hnotin : removed.id ∉ (l.take idx).map Ingredient.id ++ (l.drop (idx + 1)).map Ingredient.id := by
    have hnd2 : ((l.take idx).map Ingredient.id
        ++ removed.id :: (l.drop (idx + 1)).map Ingredient.id).Nodup := by
      rw [← List.map_cons, ← List.map_append, ← hsplit]
      exact hnd
    exact (List.nodup_cons.1 (List.nodup_middle.1 hnd2)).1
  have hany : (l.take idx ++ l.drop (idx + 1)).any (fun x => x.id = removed.id) = false := by
    rw [Bool.eq_false_iff]
    intro hT
    obtain ⟨x, hx, hxp⟩ := List.any_eq_true.1 hT
    have hxid : x.id = removed.id := by simpa using hxp
    refine hnotin ?_
    rw [← List.map_append]
    exact hxid ▸ List.mem_map_of_mem Ingredient.id hx
  refine ⟨⟨removed, idx⟩, by rw [hdel], ?_⟩
  rw [hdel]
  show deleteUndo ⟨removed, idx⟩ (l.take idx ++ l.drop (idx + 1)) = l
  rw [deleteUndo]
  simp only [hany]
  rw [if_neg (by simp)]
  have htk : (l.take idx ++ l.drop (idx + 1)).take idx = l.take idx :=
    List.take_left' htklen
  have hdp : (l.take idx ++ l.drop (idx + 1)).drop idx = l.drop (idx + 1) :=
    List.drop_left' htklen
  rw [htk, hdp]
  conv_rhs => rw [hsplit]
  simp

/-- Witness for C6: delete `legacyEntry` from `[legacyEntry, exEntry]` and
undo: the original two-element list comes back. -/
theorem deleteIngredient_undo_restores_witness :
    ∃ u, (deleteIngredient "a1" [legacyEntry, exEntry]).2 = some u ∧
      deleteUndo u (deleteIngredient "a1" [legacyEntry, exEntry]).1 = [legacyEntry, exEntry] :=
  deleteIngredient_undo_restores "a1" [legacyEntry, exEntry] (by decide) legacyEntry
    (by decide) (by decide)

/-- C1 (amended): during a reconciliation pass, an owned entry whose
lower-cased name matches a fetched remote row with quantity difference above
0.01 produces exactly one update call and no create call, *provided* the
matched backend id is nonzero and the `backendIngredientMap` already maps
the entry's local id to a nonzero backend id (entries loaded from the
remote, or already synced once, have such a mapping): the guard
`if (backendId)` treats id 0 as falsy, so a name match on row id 0 issues a
create instead, and a mapped id of 0 — like a missing mapping — silently
skips the update. -/
theorem reconcile_matched_mapped_one_update (o : Oracle) (pantryItems : List PantryRow)
    (backendMap m : BackendMap) (ing : Ingredient) (backendId mappedId : ℕ) (item : PantryRow)
    (howned : ing.owned = true)
    (hmatch : mapGet backendMap (jsToLower ing.name) = some backendId)
    (hbid : backendId ≠ 0)
    (hitem : pantryItems.find? (fun p => p.id = backendId) = some item)
    (hdiff : |item.quantity.getD 1 - ing.qty.getD 1| > 1/100)
    (hmap : mapGet m ing.id = some mappedId)
    (hmid : mappedId ≠ 0) :
    (reconcileOwnedEntry o pantryItems backendMap m ing).2
        = [RemoteCall.put mappedId (ing.qty.getD 1)] ∧
      ((reconcileOwnedEntry o pantryItems backendMap m ing).2.countP RemoteCall.isPut) = 1 ∧
      ((reconcileOwnedEntry o pantryItems backendMap m ing).2.countP RemoteCall.isPost) = 0 := by
  have h2 : (reconcileOwnedEntry o pantryItems backendMap m ing).2
      = [RemoteCall.put mappedId (ing.qty.getD 1)] := by
    rw [reconcileOwnedEntry]
    simp only [hmatch]
    rw [if_neg hbid]
    simp only [hitem]
    rw [if_pos hdiff]
    rw [syncIngredientToBackend]
    rw [if_neg (by simp [howned])]
    simp only [hmap]
    rw [if_neg hmid]
  refine ⟨h2, ?_, ?_⟩ <;> rw [h2] <;> rfl

/-- Witness for C1's amended theorem: local "Lime" (qty 0.5, mapped to
backend id 7) against remote "Lime" (qty 0.9) issues exactly the one update. -/
theorem reconcile_matched_mapped_one_update_witness :
    (reconcileOwnedEntry Oracle.allOk [limeRemote] [("lime", 7)] [("local_1", 7)] limeLocal).2
        = [RemoteCall.put 7 (limeLocal.qty.getD 1)] ∧
      ((reconcileOwnedEntry Oracle.allOk [limeRemote] [("lime", 7)] [("local_1", 7)]
          limeLocal).2.countP RemoteCall.isPut) = 1 ∧
      ((reconcileOwnedEntry Oracle.allOk [limeRemote] [("lime", 7)] [("local_1", 7)]
          limeLocal).2.countP RemoteCall.isPost) = 0 :=
  reconcile_matched_mapped_one_update Oracle.allOk [limeRemote] [("lime", 7)] [("local_1", 7)]
    limeLocal 7 7 limeRemote (by decide) (by decide) (by decide) (by decide) (by decide)
    (by decide) (by decide)

/-- C1 counterexample: the claim's premises hold ("Lime" 0.5 locally owned,
remote "Lime" 0.9, difference above 0.01), yet a pass started with an empty
`backendIngredientMap` issues no call at all — zero updates, not exactly
one (the PUT inside `syncIngredientToBackend` is skipped because the local
id has no mapping; the mapping is recorded only after the attempt). -/
theorem reconcile_unmapped_no_update_cex :
    limeLocal.owned = true ∧
      jsToLower (specNormalize limeRemote.ingredient_name).displayName
        = jsToLower limeLocal.name ∧
      |limeRemote.quantity.getD 1 - limeLocal.qty.getD 1| > 1/100 ∧
      (runSyncPass false true specNormalize (.ok [limeRemote]) Oracle.allOk
          { ingredients := [limeLocal], backendIngredientMap := [] }).2 = [] := by
  decide

/-- C3 (code bug): unauthenticated load with a cache holding one legacy entry
lacking `qty` leaves the in-memory list empty — evaluating the undefined
identifier `existingIngredients` (cabinet.tsx line 174) throws before
`setIngredients` runs — while the spec-intended fallback would produce the
entry normalized to `qty = 1`. -/
theorem initialLoad_fallback_reference_error :
    (initialLoad false (.error ()) (some [legacyEntry]) [] specNormalize specImageUrl).ingredients
        = [] ∧
      loadFallbackSpec [legacyEntry] = [{ legacyEntry with qty := some 1 }] ∧
      (initialLoad false (.error ()) (some [legacyEntry]) [] specNormalize
          specImageUrl).ingredients ≠ loadFallbackSpec [legacyEntry] := by
  decide

/-- C4 (code bug): authenticated load with one remote row replaces the
in-memory list with the converted entry (`id = "db_7"`, `owned = true`,
quantity from the row, default category) but writes nothing to the cache —
`JSON.stringify(mergedIngredients)` (cabinet.tsx line 157) evaluates an
undefined identifier and the ReferenceError aborts the write. -/
theorem initialLoad_authoritative_no_cache_write :
    initialLoad true (.ok [limeRemote]) (some [legacyEntry]) [] specNormalize specImageUrl
        = { ingredients := [convertPantryRow specNormalize specImageUrl limeRemote],
            cacheWrites := [], mapInserts := [("db_7", 7)] } ∧
      convertPantryRow specNormalize specImageUrl limeRemote
        = { id := "db_7", name := "Lime", category := "Other", owned := true,
            qty := some (mkRat 9 10), imageUrl := some "Lime/Small" } := by
  decide

end Cabinet
